import Mathlib

/-!
Verification of `win32lfn.py` (the Python 3 port of the Mercurial win32lfn
extension).

Paths are modelled as `List Char` (the characters of a Python `str`).  Python
values that may or may not be text are modelled by `PyObj`; Python exceptions
by `PyExc`.  The Windows native API calls (`FindFirstFileA`, `FindNextFileA`,
`CreateDirectoryA`, `os.chdir`, `os.path.exists`) and `os.path.abspath` are
modelled as explicit function parameters, so every wrapper is a pure function
of its environment.  The CPython `ntpath` module (Windows `os.path`), a
dependency of the source, is modelled by `splitdrive`, `ntsplit` and `ntjoin`
below, following the CPython 3.9 implementation the port targets.
-/

/-- The characters of a string literal, used to write concrete paths. -/
def strL (s : String) : List Char := s.data

/-- A Python runtime value as far as the wrappers care: a `str`, a `bytes`,
or any other object (carrying the text `str()` would produce for it and the
text of its type, for error messages). -/
inductive PyObj where
  | str (s : List Char)
  | bytes (s : List Char)
  | other (reprs : List Char) (typename : List Char)
deriving DecidableEq

/-- A Python exception, as raised by the code under study. -/
inductive PyExc where
  | typeError (msg : List Char)
  | valueError (msg : List Char)
  | osError (errnum : Nat) (msg : List Char)
  | keyError (key : Nat)
deriving DecidableEq

/-- Python 3 `==` between the values compared in this code.  A `bytes` never
equals a `str` (both sides return `NotImplemented`, so `==` evaluates to
`False` whatever the contents); `other` objects compare by identity, which
two distinct model values never share. -/
def pyEq : PyObj → PyObj → Bool
  | .str a, .str b => a == b
  | .bytes a, .bytes b => a == b
  | _, _ => false

/-- `bytestostring` from the source: decode a `bytes` to `str` (utf-8 decode,
content preserving in the model), leave anything else unchanged. -/
def bytestostring : PyObj → PyObj
  | .bytes s => .str s
  | o => o

/-- `stringtobytes` from the source: encode a `str` to `bytes`, leave
anything else unchanged. -/
def stringtobytes : PyObj → PyObj
  | .str s => .bytes s
  | o => o

/-- `str()` of a `PyObj`, as used by the `"%s" % path` formatting. -/
def pyStrOf : PyObj → List Char
  | .str s => s
  | .bytes s => s
  | .other r _ => r

/-- The text of `type(path)` used in the `TypeError` message (CPython prints
such text as `<class ...>` with the type name quoted; the quoting is elided
in the model). -/
def pyTypeOf : PyObj → List Char
  | .str _ => strL "<class str>"
  | .bytes _ => strL "<class bytes>"
  | .other _ t => t

/-- Whether the object is one of the two native text representations the
wrappers accept (`str`, or `bytes` which `bytestostring` decodes). -/
def PyObj.isText : PyObj → Bool
  | .str _ => true
  | .bytes _ => true
  | .other _ _ => false

/-- `_uncprefix = "\\\\?\\"`, the extended-length marker. -/
def uncMarker : List Char := strL "\\\\?\\"

/-- `_deviceprefix = "\\\\.\\"`, the device-namespace marker. -/
def devMarker : List Char := strL "\\\\.\\"

/-- `_maxpath = 260`. -/
def maxpath : Nat := 260

/-- `_maxdirpath = 248`. -/
def maxdirpath : Nat := 248

/-- `_WINDOWS_RESERVED_NAMES`, the reserved device names. -/
def windowsReservedNames : List (List Char) :=
  [strL "CON", strL "PRN", strL "AUX", strL "NUL",
   strL "COM1", strL "COM2", strL "COM3", strL "COM4", strL "COM5",
   strL "COM6", strL "COM7", strL "COM8", strL "COM9",
   strL "LPT1", strL "LPT2", strL "LPT3", strL "LPT4", strL "LPT5",
   strL "LPT6", strL "LPT7", strL "LPT8", strL "LPT9"]

/-- Python `str.upper()` (ASCII case mapping, which is all the reserved-name
membership test can distinguish). -/
def upperL (s : List Char) : List Char := s.map Char.toUpper

/-- Python `str.lower()` on drive strings inside `ntpath.join`. -/
def lowerL (s : List Char) : List Char := s.map Char.toLower

/-- `_ERROR_FILE_NOT_FOUND = 0x2`. -/
def ERROR_FILE_NOT_FOUND : Nat := 0x2

/-- `_ERROR_PATH_NOT_FOUND = 0x3`. -/
def ERROR_PATH_NOT_FOUND : Nat := 0x3

/-- `_ERROR_ALREADY_EXISTS = 0xB7`. -/
def ERROR_ALREADY_EXISTS : Nat := 0xB7

/-- `errno.ENOENT` on CPython (Windows included). -/
def ENOENT : Nat := 2

/-- `errno.EEXIST` on CPython (Windows included). -/
def EEXIST : Nat := 17

/-- `_errmap`, the static native-error to errno table, as the key/value pairs
of the Python dict; `dict[k]` is `List.lookup k _errmap`, raising `KeyError k`
on `none`. -/
def _errmap : List (Nat × Nat) :=
  [(ERROR_PATH_NOT_FOUND, ENOENT),
   (ERROR_ALREADY_EXISTS, EEXIST)]

/-- The body of `uncabspath` on a `str` argument.  `abspath` is the ambient
`os.path.abspath` (possibly the wrapped one installed by the extension),
passed explicitly. -/
def uncabspathStr (abspath : List Char → List Char) (path : List Char) :
    List Char :=
  if uncMarker.isPrefixOf path = false ∧ devMarker.isPrefixOf path = false ∧
      windowsReservedNames.contains (upperL path) = false then
    let path2 := abspath path
    -- path2 may now be UNC after abspath (which is the wrapped abspath here)
    if uncMarker.isPrefixOf path2 = false then
      if (strL "\\\\").isPrefixOf path2 then
        -- path2 is a UNC network path (ie, \\server\share\path); the literal
        -- UNC is part of the Microsoft API
        uncMarker ++ strL "UNC" ++ path2.drop 1
      else
        uncMarker ++ path2
    else path2
  else path

/-- The `TypeError` message `"%s is not a string (%s)" % (path, type(path))`. -/
def notAStringMsg (o : PyObj) : List Char :=
  pyStrOf o ++ strL " is not a string (" ++ pyTypeOf o ++ strL ")"

/-- `uncabspath` from the source: decode bytes, reject non-strings with a
`TypeError`, then classify/normalize/encode the path. -/
def uncabspath (abspath : List Char → List Char) (path : PyObj) :
    Except PyExc (List Char) :=
  match bytestostring path with
  | .str s => .ok (uncabspathStr abspath s)
  | o => .error (.typeError (notAStringMsg o))

/-- `wrap1` from the source: encode the first positional argument, then call
the wrapped method with the encoded path (as bytes) and the remaining
arguments. -/
def wrap1 {α : Type} (abspath : List Char → List Char)
    (method : PyObj → List PyObj → Except PyExc α)
    (arg0 : PyObj) (rest : List PyObj) : Except PyExc α :=
  match uncabspath abspath arg0 with
  | .error e => .error e
  | .ok p => method (stringtobytes (.str p)) rest

/-- `wrap2` from the source: encode the first two positional arguments
independently, then call the wrapped method. -/
def wrap2 {α : Type} (abspath : List Char → List Char)
    (method : PyObj → PyObj → List PyObj → Except PyExc α)
    (arg0 arg1 : PyObj) (rest : List PyObj) : Except PyExc α :=
  match uncabspath abspath arg0 with
  | .error e => .error e
  | .ok src =>
    match uncabspath abspath arg1 with
    | .error e => .error e
    | .ok dst => method (stringtobytes (.str src)) (stringtobytes (.str dst)) rest

/-- `lfnmkdir` from the source.  `createDirectory` models the native
`CreateDirectoryA(path, securityDescriptor)` call together with the
`GetLastError` that follows a zero return: `none` means the call returned
nonzero (success), `some code` means it returned 0 and `GetLastError()`
reported `code`.  The second parameter is the security descriptor; the source
always passes `None`.  The `mode` parameter of the wrapper is accepted and
never used. -/
def lfnmkdir (abspath : List Char → List Char)
    (createDirectory : List Char → Option Unit → Option Nat)
    (path : PyObj) (mode : Option Nat) : Except PyExc Unit :=
  match uncabspath abspath path with
  | .error e => .error e
  | .ok p =>
    -- second parameter is a security descriptor, mapping it up to our
    -- "mode" parameter is non-trivial and hopefully unnecessary
    match createDirectory p none with
    | none => .ok ()
    | some code =>
      -- error = _GetLastError(); pyerrno = _errmap[error]: a Python dict
      -- subscript raises KeyError on a missing key
      match List.lookup code _errmap with
      | some pyerrno => .error (.osError pyerrno (strL "Error"))
      | none => .error (.keyError code)

/-- Whether a character is one of the two Windows path separators
(`seps = "\\/"` in ntpath). -/
def isSep (c : Char) : Bool := c == '\\' || c == '/'

/-- Python `s.find(ch, start)` on the tail of the list from index `start`,
returning the absolute index of the first occurrence (`none` for the -1
result). -/
def findFrom (ch : Char) : List Char → Nat → Option Nat
  | [], _ => none
  | a :: l, 0 => if a = ch then some 0 else (findFrom ch l 0).map (· + 1)
  | _ :: l, n + 1 => (findFrom ch l n).map (· + 1)

/-- `ntpath.splitdrive` (CPython 3.x) for `str` arguments: split a Windows
path into a drive (letter-colon, UNC share, or extended-length prefix
through the colon) and the rest. -/
def splitdrive (p : List Char) : List Char × List Char :=
  if 2 ≤ p.length then
    let normp := p.map (fun c => if c == '/' then '\\' else c)
    if normp.take 2 = ['\\', '\\'] ∧ (normp.drop 2).take 1 ≠ ['\\'] then
      -- UNC path or extended-length path: find the separator closing the
      -- second component
      match findFrom '\\' normp 2 with
      | none => ([], p)
      | some index =>
        match findFrom '\\' normp (index + 1) with
        | none => (p.take p.length, p.drop p.length)
        | some index2 =>
          if index2 = index + 1 then ([], p)
          else (p.take index2, p.drop index2)
    else if (normp.drop 1).take 1 = [':'] then (p.take 2, p.drop 2)
    else ([], p)
  else ([], p)

/-- `ntpath.split` (CPython 3.x): split off the drive, scan back to the last
separator (the index loop is rendered with `takeWhile`/`dropWhile` on the
reversed rest), then strip trailing separators from the head unless the head
is all separators. -/
def ntsplit (p : List Char) : List Char × List Char :=
  let d := (splitdrive p).1
  let r := (splitdrive p).2
  -- i is left just past the last separator: tail = r[i:], head = r[:i]
  let tail := (r.reverse.takeWhile (fun c => !(isSep c))).reverse
  let head := (r.reverse.dropWhile (fun c => !(isSep c))).reverse
  -- head = head.rstrip(seps) or head
  let head2 := (head.reverse.dropWhile (fun c => isSep c)).reverse
  let head3 := if head2 = [] then head else head2
  (d ++ head3, tail)

/-- Whether a nonempty list starts with a separator (`p and p[0] in seps`). -/
def firstIsSep : List Char → Bool
  | [] => false
  | c :: _ => isSep c

/-- Whether a nonempty list ends with a separator (`p and p[-1] in seps`). -/
def lastIsSep (l : List Char) : Bool :=
  match l.getLast? with
  | some c => isSep c
  | none => false

/-- The relative-join step inside `ntpath.join`: add a separator after the
accumulated path unless it already ends with one, then append the new
component. -/
def joinRel (rp pp : List Char) : List Char :=
  (if rp ≠ [] ∧ lastIsSep rp = false then rp ++ ['\\'] else rp) ++ pp

/-- `ntpath.join` (CPython 3.x) for exactly two arguments, the shape
`join(*split(p))` uses: the loop body of the varargs version run once. -/
def ntjoin (path p : List Char) : List Char :=
  let s := splitdrive path
  let sp := splitdrive p
  let step :=
    if firstIsSep sp.2 = true then
      -- second path is absolute
      (if sp.1 ≠ [] ∨ s.1 = [] then sp.1 else s.1, sp.2)
    else if sp.1 ≠ [] ∧ sp.1 ≠ s.1 then
      if lowerL sp.1 ≠ lowerL s.1 then (sp.1, sp.2)
      else (sp.1, joinRel s.2 sp.2)
    else (s.1, joinRel s.2 sp.2)
  -- add separator between UNC and non-absolute path
  if step.2 ≠ [] ∧ firstIsSep step.2 = false ∧ step.1 ≠ [] ∧
      step.1.getLast? ≠ some ':' then
    step.1 ++ '\\' :: step.2
  else step.1 ++ step.2

/-- `_addmissingbackslash` from the source: append a backslash to a path that
ends with a colon. -/
def addmissingbackslash (path : List Char) : List Char :=
  if path.getLast? = some ':' then path ++ ['\\'] else path

/-- `wrapsplit` from the source: run the wrapped split, then repair a head
component that ends with a colon by appending the missing backslash. -/
def wrapsplit (split : List Char → List Char × List Char)
    (path : List Char) : List Char × List Char :=
  let result := split path
  if result.1.getLast? = some ':' then (result.1 ++ ['\\'], result.2)
  else result

/-- The wrapped split installed (historically) over `os.path.split`. -/
def lfnsplit : List Char → List Char × List Char := wrapsplit ntsplit

/-- A drive designator for building normalized drive-absolute paths: a bare
drive letter (`c:`) or an extended-length one (`\\?\c:`). -/
inductive Drive where
  | letter (c : Char)
  | extended (c : Char)
deriving DecidableEq

/-- The characters of a drive designator. -/
def Drive.chars : Drive → List Char
  | .letter c => [c, ':']
  | .extended c => ['\\', '\\', '?', '\\', c, ':']

/-- A usable drive letter: not a separator and not a colon. -/
def Drive.ok : Drive → Prop
  | .letter c => c ≠ '\\' ∧ c ≠ '/' ∧ c ≠ ':'
  | .extended c => c ≠ '\\' ∧ c ≠ '/' ∧ c ≠ ':'

/-- A path component of a normalized path: nonempty, with no separator and
no colon. -/
def compOK (s : List Char) : Prop :=
  s ≠ [] ∧ ∀ c ∈ s, c ≠ '\\' ∧ c ≠ '/' ∧ c ≠ ':'

/-- Backslash-intercalation of path components. -/
def interSep : List (List Char) → List Char
  | [] => []
  | [c] => c
  | c :: cs => c ++ '\\' :: interSep cs

/-- The normalized drive-absolute path with the given drive and components:
`mkPath d [] = "d:\\"` (a drive root) and
`mkPath d [a, b] = "d:\\a\\b"`. -/
def mkPath (d : Drive) (comps : List (List Char)) : List Char :=
  d.chars ++ '\\' :: interSep comps

/-- Result of the native `FindFirstFileA(pattern, byref(out))` call:
`ok first rest` is a valid handle whose `out` now holds `first` and whose
subsequent `FindNextFileA` calls yield `rest` in order and then return 0;
`fail code` is `INVALID_HANDLE_VALUE` with `GetLastError() = code`.  Entry
names come back through the `WIN32_FIND_DATAA.cFileName` field, whose value
is a Python `bytes`. -/
inductive FindResult where
  | ok (first : List Char) (rest : List (List Char))
  | fail (code : Nat)

/-- Environment of `lfnlistdir`: the ambient `os.path.abspath` and the native
find-first call (keyed by the search pattern handed to it). -/
structure ListdirEnv where
  abspath : List Char → List Char
  findFirst : List Char → FindResult

/-- The `while True` loop of `lfnlistdir`: append the current
`out.cFileName` unless it equals the `str` literals `".."` or `"."`
(a `bytes`/`str` comparison in this Python 3 port), then advance with
`FindNextFileA` until it returns 0.  `out` is the current contents of the
find-data buffer and `rem` the entries the remaining `FindNextFileA` calls
will deliver. -/
def findLoop (out : List Char) (rem : List (List Char))
    (acc : List (List Char)) : List (List Char) :=
  let acc2 :=
    if pyEq (.bytes out) (.str (strL "..")) = false ∧
        pyEq (.bytes out) (.str (strL ".")) = false then
      acc ++ [out]
    else acc
  match rem with
  | [] => acc2
  | e :: rest => findLoop e rest acc2

/-- `lfnlistdir` from the source: encode the path, open a native find handle
on `os.path.join(path, "*")`, and collect entries.  On an invalid handle
whose code is neither path-not-found nor file-not-found, raise
`ValueError("invalid handle (%s, %s)! " % (path, error))`.  On an invalid
handle with a not-found code the source does not return early: it falls
through to the loop with the zero-initialized `WIN32_FIND_DATAA` (whose
`cFileName` reads as the empty bytes) and with `FindNextFileA` running on the
invalid handle, which reports no further entries.  `FindClose` runs on every
exit path and has no observable effect in the model. -/
def lfnlistdir (env : ListdirEnv) (path : PyObj) :
    Except PyExc (List PyObj) :=
  match uncabspath env.abspath path with
  | .error e => .error e
  | .ok p =>
    match env.findFirst (ntjoin p (strL "*")) with
    | .fail code =>
      if code ≠ ERROR_PATH_NOT_FOUND ∧ code ≠ ERROR_FILE_NOT_FOUND then
        .error (.valueError (strL "invalid handle (" ++ p ++ strL ", " ++
          (Nat.repr code).data ++ strL ")! "))
      else
        .ok ((findLoop [] [] []).map PyObj.bytes)
    | .ok first rest => .ok ((findLoop first rest []).map PyObj.bytes)

/-- Environment of `lfnchdir`: the ambient `os.path.abspath`,
`os.path.exists`, and the native `os.chdir` (which may raise). -/
structure ChdirEnv where
  abspath : List Char → List Char
  pathExists : List Char → Bool
  chdir : List Char → Except PyExc Unit

/-- `lfnchdir` from the source (the function returned by `wrapchdir`),
with the module-level `_cwd` passed and returned explicitly.  For a short
absolute path the native `chdir` runs (and any exception it raises
propagates before `_cwd` is touched); for a long one only `ui.warn` runs,
which has no observable effect in the model.  Then the encoded path is
stored in `_cwd` if it exists, else `OSError(ENOENT, ...)` is raised with
`_cwd` untouched. -/
def lfnchdir (env : ChdirEnv) (cwd : Option (List Char)) (path : List Char) :
    Except PyExc Unit × Option (List Char) :=
  let p := env.abspath path
  let afterChdir : Except PyExc Unit :=
    if maxdirpath ≤ p.length then
      -- ui.warn(...): message only, no exception
      .ok ()
    else env.chdir p
  match afterChdir with
  | .error e => (.error e, cwd)
  | .ok _ =>
    let q := uncabspathStr env.abspath p
    if env.pathExists q then (.ok (), some q)
    else (.error (.osError ENOENT (strL "Directory does not exist: " ++ q)), cwd)

instance (s : List Char) : Decidable (compOK s) := by
  unfold compOK; infer_instance

instance (d : Drive) : Decidable (Drive.ok d) := by
  cases d <;> (unfold Drive.ok; infer_instance)

theorem isPrefixOf_append_self (l t : List Char) : l.isPrefixOf (l ++ t) = true := by
  simp [List.isPrefixOf_iff_prefix]

theorem uncabspathStr_of_encoded (f : List Char → List Char) (q : List Char)
    (h : uncMarker.isPrefixOf q = true) : uncabspathStr f q = q := by
  unfold uncabspathStr
  rw [if_neg]
  intro hc
  rw [hc.1] at h
  exact Bool.false_ne_true h

theorem uncMarker_prefix_uncabspathStr (f : List Char → List Char)
    (p : List Char)
    (h : uncMarker.isPrefixOf p = false ∧ devMarker.isPrefixOf p = false ∧
      windowsReservedNames.contains (upperL p) = false) :
    uncMarker.isPrefixOf (uncabspathStr f p) = true := by
  unfold uncabspathStr
  rw [if_pos h]
  by_cases h2 : uncMarker.isPrefixOf (f p) = false
  · rw [if_pos h2]
    by_cases h3 : (strL "\\\\").isPrefixOf (f p) = true
    · rw [if_pos h3]
      exact isPrefixOf_append_self _ _
    · rw [if_neg h3]
      exact isPrefixOf_append_self _ _
  · rw [if_neg h2]
    exact Bool.not_eq_false _ |>.mp h2

theorem uncabspathStr_idem (f : List Char → List Char) (p : List Char) :
    uncabspathStr f (uncabspathStr f p) = uncabspathStr f p := by
  by_cases h : uncMarker.isPrefixOf p = false ∧ devMarker.isPrefixOf p = false ∧
      windowsReservedNames.contains (upperL p) = false
  · exact uncabspathStr_of_encoded f _ (uncMarker_prefix_uncabspathStr f p h)
  · have hp : uncabspathStr f p = p := by
      unfold uncabspathStr
      rw [if_neg h]
    rw [hp, hp]

/-- Claim C4: an input that already starts with the extended-length marker
`\\?\` or the device marker `\\.\`, or whose uppercasing is a reserved device
name, is returned unchanged by `uncabspath`; and the pipeline is idempotent:
`uncabspath(uncabspath(p)) == uncabspath(p)` for every string `p` (for any
ambient `abspath`). -/
theorem uncabspath_idempotent (f : List Char → List Char) (p : List Char) :
    ((uncMarker.isPrefixOf p = true ∨ devMarker.isPrefixOf p = true ∨
        windowsReservedNames.contains (upperL p) = true) →
      uncabspathStr f p = p) ∧
    uncabspathStr f (uncabspathStr f p) = uncabspathStr f p := by
  constructor
  · intro h
    unfold uncabspathStr
    rw [if_neg]
    intro hc
    rcases h with h | h | h
    · rw [hc.1] at h; exact Bool.false_ne_true h
    · rw [hc.2.1] at h; exact Bool.false_ne_true h
    · rw [hc.2.2] at h; exact Bool.false_ne_true h
  · exact uncabspathStr_idem f p

/-- Witness for C4 at the concrete inputs `\\?\C:\x` (already encoded,
returned unchanged) and `foo` (idempotence after one encoding). -/
theorem uncabspath_idempotent_witness :
    uncabspathStr id (strL "\\\\?\\C:\\x") = strL "\\\\?\\C:\\x" ∧
    uncabspathStr id (uncabspathStr id (strL "foo")) =
      uncabspathStr id (strL "foo") := by
  exact ⟨(uncabspath_idempotent id (strL "\\\\?\\C:\\x")).1 (Or.inl (by decide)),
    (uncabspath_idempotent id (strL "foo")).2⟩

/-- Claim C5: on an absolute path (one the ambient `abspath` leaves fixed)
that is not yet encoded, not a device path and not a reserved name,
`uncabspath` rewrites a double-separator UNC path `\\server\share\x` to
exactly the extended marker, the literal token `UNC`, and the remainder of
the path from its second separator on (`path[1:]`); it prepends the
local-drive marker directly to every other absolute path; and re-running the
encoder on either result leaves it unchanged. -/
theorem uncabspath_unc_encoding (f : List Char → List Char) (p : List Char)
    (h1 : uncMarker.isPrefixOf p = false)
    (h2 : devMarker.isPrefixOf p = false)
    (h3 : windowsReservedNames.contains (upperL p) = false)
    (habs : f p = p) :
    ((strL "\\\\").isPrefixOf p = true →
      uncabspathStr f p = uncMarker ++ strL "UNC" ++ p.drop 1) ∧
    ((strL "\\\\").isPrefixOf p = false →
      uncabspathStr f p = uncMarker ++ p) ∧
    uncabspathStr f (uncabspathStr f p) = uncabspathStr f p := by
  refine ⟨fun hu => ?_, fun hu => ?_, uncabspathStr_idem f p⟩ <;>
    · unfold uncabspathStr
      rw [if_pos ⟨h1, h2, h3⟩]
      simp only [habs]
      rw [if_pos h1, hu]
      simp

/-- Witness for C5: `\\server\share\x` encodes to `\\?\UNC\server\share\x`
(the remainder from the second separator on), `C:\x` encodes to `\\?\C:\x`,
and re-encoding the UNC result changes nothing. -/
theorem uncabspath_unc_encoding_witness :
    uncabspathStr id (strL "\\\\server\\share\\x") =
      strL "\\\\?\\UNC\\server\\share\\x" ∧
    uncabspathStr id (strL "C:\\x") = strL "\\\\?\\C:\\x" ∧
    uncabspathStr id (uncabspathStr id (strL "\\\\server\\share\\x")) =
      uncabspathStr id (strL "\\\\server\\share\\x") := by
  have h := uncabspath_unc_encoding id (strL "\\\\server\\share\\x")
    (by decide) (by decide) (by decide) rfl
  have h2 := uncabspath_unc_encoding id (strL "C:\\x")
    (by decide) (by decide) (by decide) rfl
  refine ⟨?_, ?_, h.2.2⟩
  · rw [h.1 (by decide)]; decide
  · rw [h2.2.1 (by decide)]; decide

/-- Claim C8: a wrapped primitive called with a first positional argument
that is not text (neither `str` nor `bytes`, the two representations
`bytestostring` accepts) raises `TypeError("%s is not a string (%s)" %
(path, type(path)))`, identifying the offending value and its type, and does
so before any native call: the outcome is the same whatever wrapped method
(`m1`/`m2`, `n1`/`n2`) sits underneath.  This covers both the one-path and
the two-path wrappers, through which every primitive is installed. -/
theorem wrap_rejects_non_text {α β : Type} (f : List Char → List Char)
    (m1 m2 : PyObj → List PyObj → Except PyExc α)
    (n1 n2 : PyObj → PyObj → List PyObj → Except PyExc β)
    (v w : PyObj) (rest : List PyObj) (h : v.isText = false) :
    wrap1 f m1 v rest = .error (.typeError (notAStringMsg v)) ∧
    wrap1 f m1 v rest = wrap1 f m2 v rest ∧
    wrap2 f n1 v w rest = .error (.typeError (notAStringMsg v)) ∧
    wrap2 f n1 v w rest = wrap2 f n2 v w rest := by
  cases v with
  | str s => simp [PyObj.isText] at h
  | bytes s => simp [PyObj.isText] at h
  | other r t =>
    refine ⟨rfl, rfl, rfl, rfl⟩

/-- Witness for C8: an `int`-like object as first argument makes `wrap1` and
`wrap2` fail with the identifying `TypeError` regardless of the wrapped
method. -/
theorem wrap_rejects_non_text_witness :
    wrap1 id (fun _ _ => Except.ok ()) (.other (strL "5") (strL "<class int>"))
        [] =
      .error (.typeError (notAStringMsg
        (.other (strL "5") (strL "<class int>")))) ∧
    wrap2 id (fun _ _ _ => Except.ok ())
        (.other (strL "5") (strL "<class int>")) (.str (strL "C:\\x")) [] =
      .error (.typeError (notAStringMsg
        (.other (strL "5") (strL "<class int>")))) := by
  have h := wrap_rejects_non_text id
    (fun _ _ => Except.ok ()) (fun _ _ => Except.ok ())
    (fun _ _ _ => Except.ok ()) (fun _ _ _ => Except.ok ())
    (.other (strL "5") (strL "<class int>")) (.str (strL "C:\\x")) []
    (by decide)
  exact ⟨h.1, h.2.2.1⟩

/-- Claim C9: when the native create-directory call fails with the
already-exists code (0xB7), `lfnmkdir` raises `OSError` carrying the mapped
portable code `errno.EEXIST`. -/
theorem lfnmkdir_already_exists (f : List Char → List Char)
    (cd : List Char → Option Unit → Option Nat)
    (path : List Char) (mode : Option Nat)
    (h : cd (uncabspathStr f path) none = some ERROR_ALREADY_EXISTS) :
    lfnmkdir f cd (.str path) mode = .error (.osError EEXIST (strL "Error")) := by
  unfold lfnmkdir uncabspath bytestostring
  simp only [h]
  rfl

/-- Witness for C9 with a native call that reports already-exists. -/
theorem lfnmkdir_already_exists_witness :
    lfnmkdir id (fun _ _ => some ERROR_ALREADY_EXISTS) (.str (strL "C:\\d"))
      none = .error (.osError EEXIST (strL "Error")) :=
  lfnmkdir_already_exists id (fun _ _ => some ERROR_ALREADY_EXISTS)
    (strL "C:\\d") none rfl

/-- Claim C10: the `mode` parameter of `lfnmkdir` has no effect on
behaviour, and the native call is always the same
`CreateDirectoryA(encoded-path, NULL)`: for any two native implementations
that agree on calls with a null security descriptor (the only calls the
wrapper makes), and any two modes, the results coincide. -/
theorem lfnmkdir_mode_irrelevant (f : List Char → List Char)
    (cd cd2 : List Char → Option Unit → Option Nat)
    (path : PyObj) (m1 m2 : Option Nat)
    (h : ∀ p, cd p none = cd2 p none) :
    lfnmkdir f cd path m1 = lfnmkdir f cd2 path m2 := by
  unfold lfnmkdir
  cases uncabspath f path with
  | error e => rfl
  | ok p => simp only [h]

/-- Witness for C10: two different mode arguments, and two native models
agreeing on null-descriptor calls, give the same result. -/
theorem lfnmkdir_mode_irrelevant_witness :
    lfnmkdir id (fun _ _ => none) (.str (strL "C:\\d")) (some 511) =
      lfnmkdir id (fun _ _ => none) (.str (strL "C:\\d")) none :=
  lfnmkdir_mode_irrelevant id (fun _ _ => none) (fun _ _ => none)
    (.str (strL "C:\\d")) (some 511) none (fun _ => rfl)

/-- Counterexample for claim C3: the static table `_errmap` has no entry for
the native file-not-found code 0x2 (it maps only path-not-found and
already-exists), and when the native create call fails with an unmapped code
the dict subscript `_errmap[error]` itself raises `KeyError` carrying that
code, rather than an unmapped/raw `OSError`: evaluated here at the
file-not-found code itself. -/
theorem errmap_file_not_found_unmapped :
    List.lookup ERROR_FILE_NOT_FOUND _errmap = none ∧
    lfnmkdir id (fun _ _ => some ERROR_FILE_NOT_FOUND) (.str (strL "C:\\d"))
      none = .error (.keyError ERROR_FILE_NOT_FOUND) := by
  exact ⟨rfl, rfl⟩

/-- Claim C3 as amended: the static table maps path-not-found to `ENOENT`
and already-exists to `EEXIST` but has no entry for file-not-found; for a
native failure code with no listed mapping, the lookup in `lfnmkdir` raises
a `KeyError` that carries the native code unchanged (the code is not
silently swallowed, but the caller receives the failed lookup itself, not a
raw `OSError`). -/
theorem errmap_partial_mapping_keyerror (f : List Char → List Char)
    (cd : List Char → Option Unit → Option Nat)
    (path : List Char) (mode : Option Nat) (code : Nat)
    (hcd : cd (uncabspathStr f path) none = some code)
    (hun : List.lookup code _errmap = none) :
    List.lookup ERROR_PATH_NOT_FOUND _errmap = some ENOENT ∧
    List.lookup ERROR_ALREADY_EXISTS _errmap = some EEXIST ∧
    List.lookup ERROR_FILE_NOT_FOUND _errmap = none ∧
    lfnmkdir f cd (.str path) mode = .error (.keyError code) := by
  refine ⟨rfl, rfl, rfl, ?_⟩
  unfold lfnmkdir uncabspath bytestostring
  simp only [hcd, hun]

/-- Witness for the amended C3 at the access-denied code 0x5, which is not
in the table. -/
theorem errmap_partial_mapping_keyerror_witness :
    lfnmkdir id (fun _ _ => some 0x5) (.str (strL "C:\\d")) none =
      .error (.keyError 0x5) :=
  (errmap_partial_mapping_keyerror id (fun _ _ => some 0x5) (strL "C:\\d")
    none 0x5 rfl rfl).2.2.2

/-- Claim C7: `lfnchdir` stores the encoded absolute target in the virtual
current directory only after `os.path.exists` confirms it; and when the
target does not exist (so that the native `chdir`, if it runs, can only fail
with `ENOENT`), it raises an `OSError` with `errno.ENOENT` and leaves the
stored value unchanged. -/
theorem lfnchdir_state_spec (env : ChdirEnv) (cwd : Option (List Char))
    (path : List Char) :
    ((lfnchdir env cwd path).2 ≠ cwd →
      (lfnchdir env cwd path).2 =
          some (uncabspathStr env.abspath (env.abspath path)) ∧
        env.pathExists (uncabspathStr env.abspath (env.abspath path)) = true) ∧
    (env.pathExists (uncabspathStr env.abspath (env.abspath path)) = false →
      (∀ e, env.chdir (env.abspath path) = .error e →
        ∃ m, e = .osError ENOENT m) →
      (∃ m, (lfnchdir env cwd path).1 = .error (.osError ENOENT m)) ∧
        (lfnchdir env cwd path).2 = cwd) := by
  simp only [lfnchdir]
  by_cases hlen : maxdirpath ≤ (env.abspath path).length
  · rw [if_pos hlen]
    by_cases hex : env.pathExists (uncabspathStr env.abspath (env.abspath path))
    · rw [if_pos hex]
      exact ⟨fun _ => ⟨rfl, hex⟩, fun hf => absurd hex (by simp [hf])⟩
    · rw [if_neg hex]
      exact ⟨fun hne => absurd rfl hne, fun _ _ => ⟨⟨_, rfl⟩, rfl⟩⟩
  · rw [if_neg hlen]
    cases hch : env.chdir (env.abspath path) with
    | error e =>
      refine ⟨fun hne => absurd rfl hne, fun _ hok => ?_⟩
      obtain ⟨m, hm⟩ := hok e rfl
      exact ⟨⟨m, by rw [hm]⟩, rfl⟩
    | ok u =>
      by_cases hex : env.pathExists (uncabspathStr env.abspath (env.abspath path))
      · rw [if_pos hex]
        exact ⟨fun _ => ⟨rfl, hex⟩, fun hf => absurd hex (by simp [hf])⟩
      · rw [if_neg hex]
        exact ⟨fun hne => absurd rfl hne, fun _ _ => ⟨⟨_, rfl⟩, rfl⟩⟩

/-- Witness for C7: with a filesystem in which nothing exists and a native
`chdir` failing with `ENOENT`, changing to `C:\gone` raises `ENOENT` and
leaves the virtual directory (here unset) unchanged. -/
theorem lfnchdir_state_spec_witness :
    (∃ m, (lfnchdir
        { abspath := id, pathExists := fun _ => false,
          chdir := fun _ => .error (.osError ENOENT (strL "gone")) }
        none (strL "C:\\gone")).1 = .error (.osError ENOENT m)) ∧
      (lfnchdir
        { abspath := id, pathExists := fun _ => false,
          chdir := fun _ => .error (.osError ENOENT (strL "gone")) }
        none (strL "C:\\gone")).2 = none := by
  exact (lfnchdir_state_spec
    { abspath := id, pathExists := fun _ => false,
      chdir := fun _ => .error (.osError ENOENT (strL "gone")) }
    none (strL "C:\\gone")).2 rfl
    (fun e he => ⟨strL "gone", by cases he; rfl⟩)

/-- Claim C1 (evaluation at the failing input): when the native find-first
open fails with the file-not-found code, `lfnlistdir` does not return an
empty sequence: the not-found branch falls through to the collection loop,
which appends the zero-initialized find-data name, so the result is the
one-element list `[b""]`.  For any other failure code (here 0x5,
access-denied) it raises `ValueError` whose message carries the encoded path
and the native code, as the claim states. -/
theorem lfnlistdir_notfound_returns_empty_name :
    lfnlistdir { abspath := id, findFirst := fun _ => .fail ERROR_FILE_NOT_FOUND }
        (.str (strL "C:\\missing")) = .ok [PyObj.bytes []] ∧
    lfnlistdir { abspath := id, findFirst := fun _ => .fail ERROR_PATH_NOT_FOUND }
        (.str (strL "C:\\missing")) = .ok [PyObj.bytes []] ∧
    lfnlistdir { abspath := id, findFirst := fun _ => .fail 0x5 }
        (.str (strL "C:\\locked")) =
      .error (.valueError (strL "invalid handle (\\\\?\\C:\\locked, 5)! ")) := by
  exact ⟨rfl, rfl, rfl⟩

/-- Claim C2 (evaluation at the failing input): on a directory that exists
and whose native enumeration yields `.`, `..`, `a.txt` in that order,
`lfnlistdir` returns all three entries — the pseudo-entries `.` and `..`
are not excluded, because the filter compares the `bytes` value
`out.cFileName` against the `str` literals `".."` and `"."`, which is always
false in Python 3.  Order is preserved. -/
theorem lfnlistdir_keeps_pseudo_entries :
    lfnlistdir
        { abspath := id,
          findFirst := fun _ => .ok (strL ".") [strL "..", strL "a.txt"] }
        (.str (strL "C:\\d")) =
      .ok [PyObj.bytes (strL "."), PyObj.bytes (strL ".."),
        PyObj.bytes (strL "a.txt")] := rfl

theorem takeWhile_append_all (p : Char → Bool) (xs ys : List Char)
    (h : ∀ x ∈ xs, p x = true) :
    List.takeWhile p (xs ++ ys) = xs ++ List.takeWhile p ys := by
  induction xs with
  | nil => simp
  | cons a l ih =>
    have ha : p a = true := h a (by simp)
    simp [List.takeWhile_cons, ha, ih (fun x hx => h x (by simp [hx]))]

theorem dropWhile_append_all (p : Char → Bool) (xs ys : List Char)
    (h : ∀ x ∈ xs, p x = true) :
    List.dropWhile p (xs ++ ys) = List.dropWhile p ys := by
  induction xs with
  | nil => simp
  | cons a l ih =>
    have ha : p a = true := h a (by simp)
    simp [List.dropWhile_cons, ha, ih (fun x hx => h x (by simp [hx]))]

theorem splitdrive_letter (c : Char) (rest : List Char) (h2 : c ≠ '/') :
    splitdrive (c :: ':' :: rest) = ([c, ':'], rest) := by
  simp [splitdrive, h2]

theorem splitdrive_extended (c : Char) (l : List Char)
    (h1 : c ≠ '\\') (h2 : c ≠ '/') :
    splitdrive ('\\' :: '\\' :: '?' :: '\\' :: c :: ':' :: '\\' :: l) =
      (['\\', '\\', '?', '\\', c, ':'], '\\' :: l) := by
  simp [splitdrive, findFrom, h1, h2]

theorem splitdrive_drive (d : Drive) (hd : Drive.ok d) (l : List Char) :
    splitdrive (d.chars ++ '\\' :: l) = (d.chars, '\\' :: l) := by
  cases d with
  | letter c => exact splitdrive_letter c ('\\' :: l) hd.2.1
  | extended c => exact splitdrive_extended c l hd.1 hd.2.1

theorem splitdrive_comp (s : List Char) (h : compOK s) :
    splitdrive s = ([], s) := by
  obtain ⟨hne, hch⟩ := h
  cases s with
  | nil => rfl
  | cons a l =>
    cases l with
    | nil => rfl
    | cons b l2 =>
      have ha := hch a (by simp)
      have hb := hch b (by simp)
      simp [splitdrive, ha.1, ha.2.1, hb.2.1, hb.2.2]

theorem splitdrive_nil : splitdrive [] = ([], []) := rfl

theorem interSep_concat (cs : List (List Char)) (lc : List Char) (h : cs ≠ []) :
    interSep (cs ++ [lc]) = interSep cs ++ '\\' :: lc := by
  induction cs with
  | nil => cases h rfl
  | cons c cs ih =>
    cases cs with
    | nil => simp [interSep]
    | cons c2 cs2 =>
      have h2 := ih (by simp)
      simp only [List.cons_append] at h2 ⊢
      rw [interSep, h2] <;> simp [interSep]

theorem interSep_reverse_head (cs : List (List Char)) (h : cs ≠ [])
    (hall : ∀ s ∈ cs, compOK s) :
    ∃ a t, (interSep cs).reverse = a :: t ∧ isSep a = false ∧ a ≠ ':' := by
  induction cs with
  | nil => cases h rfl
  | cons c cs ih =>
    cases cs with
    | nil =>
      obtain ⟨hne, hchars⟩ := hall c (by simp)
      cases hcr : c.reverse with
      | nil =>
        exact absurd (by simpa using congrArg List.reverse hcr) hne
      | cons a t =>
        have ha : a ∈ c := by
          have : a ∈ c.reverse := by rw [hcr]; simp
          simpa using this
        obtain ⟨ha1, ha2, ha3⟩ := hchars a ha
        exact ⟨a, t, by simp [interSep, hcr], by simp [isSep, ha1, ha2], ha3⟩
    | cons c2 cs2 =>
      obtain ⟨a, t, hat, hsep, hcol⟩ := ih (by simp)
        (fun s hs => hall s (by simp [hs]))
      refine ⟨a, t ++ '\\' :: c.reverse, ?_, hsep, hcol⟩
      simp only [interSep, List.reverse_append, List.reverse_cons, hat]
      simp

theorem compOK_rev_nonsep (lc : List Char) (hc : compOK lc) :
    ∀ x ∈ lc.reverse, (fun c => !isSep c) x = true := by
  intro x hx
  obtain ⟨h1, h2, _⟩ := hc.2 x (by simpa using hx)
  simp [isSep, h1, h2]

theorem interSep_concat_back (cs : List (List Char)) (a : Char) (t : List Char)
    (hat : (interSep cs).reverse = a :: t) : interSep cs = t.reverse ++ [a] := by
  rw [← List.reverse_reverse (interSep cs), hat]
  simp

theorem ntsplit_root (d : Drive) (hd : Drive.ok d) :
    ntsplit (mkPath d []) = (d.chars ++ ['\\'], []) := by
  simp only [ntsplit, mkPath, interSep]
  rw [splitdrive_drive d hd []]
  simp [isSep]

theorem ntsplit_single (d : Drive) (lc : List Char) (hd : Drive.ok d)
    (hc : compOK lc) :
    ntsplit (mkPath d [lc]) = (d.chars ++ ['\\'], lc) := by
  simp only [ntsplit, mkPath, interSep]
  rw [splitdrive_drive d hd lc]
  simp only [List.reverse_cons]
  rw [takeWhile_append_all _ _ _ (compOK_rev_nonsep lc hc),
    dropWhile_append_all _ _ _ (compOK_rev_nonsep lc hc)]
  simp [isSep]

theorem ntsplit_concat (d : Drive) (cs : List (List Char)) (lc : List Char)
    (hd : Drive.ok d) (hcs : cs ≠ []) (hall : ∀ s ∈ cs, compOK s)
    (hlc : compOK lc) :
    ntsplit (mkPath d (cs ++ [lc])) = (d.chars ++ '\\' :: interSep cs, lc) := by
  obtain ⟨a, t, hat, hsep, hcol⟩ := interSep_reverse_head cs hcs hall
  simp only [ntsplit, mkPath, interSep_concat cs lc hcs]
  rw [splitdrive_drive d hd (interSep cs ++ '\\' :: lc)]
  simp only [List.reverse_cons, List.reverse_append, hat, List.append_assoc,
    List.singleton_append, List.cons_append]
  rw [takeWhile_append_all _ _ _ (compOK_rev_nonsep lc hlc),
    dropWhile_append_all _ _ _ (compOK_rev_nonsep lc hlc)]
  have hsep2 : (a == '\\' || a == '/') = false := by simpa [isSep] using hsep
  simp [isSep, List.dropWhile_cons, hsep2, interSep_concat_back cs a t hat]

theorem ntjoin_root (d : Drive) (hd : Drive.ok d) :
    ntjoin (d.chars ++ ['\\']) [] = d.chars ++ ['\\'] := by
  have h1 : splitdrive (d.chars ++ ['\\']) = (d.chars, ['\\']) :=
    splitdrive_drive d hd []
  simp [ntjoin, h1, splitdrive_nil, firstIsSep, joinRel, lastIsSep, isSep]

theorem ntjoin_single (d : Drive) (lc : List Char) (hd : Drive.ok d)
    (hc : compOK lc) :
    ntjoin (d.chars ++ ['\\']) lc = d.chars ++ '\\' :: lc := by
  have h1 : splitdrive (d.chars ++ ['\\']) = (d.chars, ['\\']) :=
    splitdrive_drive d hd []
  have h2 := splitdrive_comp lc hc
  obtain ⟨hne, hch⟩ := hc
  cases lc with
  | nil => cases hne rfl
  | cons a l =>
    have ha := hch a (by simp)
    simp [ntjoin, h1, h2, firstIsSep, isSep, ha.1, ha.2.1, joinRel, lastIsSep]

theorem ntjoin_multi (d : Drive) (cs : List (List Char)) (lc : List Char)
    (hd : Drive.ok d) (hcs : cs ≠ []) (hall : ∀ s ∈ cs, compOK s)
    (hlc : compOK lc) :
    ntjoin (d.chars ++ '\\' :: interSep cs) lc =
      d.chars ++ '\\' :: interSep (cs ++ [lc]) := by
  have h1 := splitdrive_drive d hd (interSep cs)
  have h2 := splitdrive_comp lc hlc
  obtain ⟨a, t, hat, hsep, hcol⟩ := interSep_reverse_head cs hcs hall
  have hback := interSep_concat_back cs a t hat
  have hlast : lastIsSep ('\\' :: interSep cs) = false := by
    rw [hback, lastIsSep]
    have : ('\\' :: (t.reverse ++ [a])).getLast? = some a := by
      rw [show '\\' :: (t.reverse ++ [a]) = ('\\' :: t.reverse) ++ [a] by simp]
      exact List.getLast?_concat _
    rw [this]
    simpa using hsep
  obtain ⟨hne, hch⟩ := hlc
  cases lc with
  | nil => cases hne rfl
  | cons b l =>
    have hb := hch b (by simp)
    rw [interSep_concat cs (b :: l) hcs]
    simp [ntjoin, h1, h2, firstIsSep, isSep, hb.1, hb.2.1, joinRel, hlast]

/-- Claim C6 as amended: under the wrapped split (which appends the missing
backslash when the head component ends with a colon) the round-trip law
`join(*split(P)) == P` holds for every normalized drive-absolute path `P` —
a path built from a drive designator (bare `c:` or extended `\\?\c:`) and
backslash-separated, nonempty, separator- and colon-free components,
including the bare drive root (`comps = []`).  On the Python 3 runtime this
port targets, the unwrapped native split/join pair also satisfies the law at
drive roots (see the counterexample theorem), so the wrapped split never
needs its colon repair on such inputs. -/
theorem join_lfnsplit_roundtrip (d : Drive) (comps : List (List Char))
    (hd : Drive.ok d) (hall : ∀ s ∈ comps, compOK s) :
    ntjoin (lfnsplit (mkPath d comps)).1 (lfnsplit (mkPath d comps)).2 =
      mkPath d comps := by
  rcases List.eq_nil_or_concat comps with hc | ⟨cs, lc, hc⟩
  · subst hc
    have hs := ntsplit_root d hd
    have hw : lfnsplit (mkPath d []) = (d.chars ++ ['\\'], []) := by
      simp [lfnsplit, wrapsplit, hs, List.getLast?_concat]
    rw [hw]
    exact ntjoin_root d hd
  · rw [List.concat_eq_append] at hc
    subst hc
    have hlc : compOK lc := hall lc (by simp)
    rcases eq_or_ne cs [] with hcs | hcs
    · subst hcs
      simp only [List.nil_append]
      have hs := ntsplit_single d lc hd hlc
      have hw : lfnsplit (mkPath d [lc]) = (d.chars ++ ['\\'], lc) := by
        simp [lfnsplit, wrapsplit, hs, List.getLast?_concat]
      rw [hw]
      exact ntjoin_single d lc hd hlc
    · have hallcs : ∀ s ∈ cs, compOK s := fun s hs => hall s (by simp [hs])
      obtain ⟨a, t, hat, hsep, hcol⟩ := interSep_reverse_head cs hcs hallcs
      have hback := interSep_concat_back cs a t hat
      have hs := ntsplit_concat d cs lc hd hcs hallcs hlc
      have hlastv : (d.chars ++ '\\' :: interSep cs).getLast? = some a := by
        rw [hback, show d.chars ++ '\\' :: (t.reverse ++ [a]) =
          (d.chars ++ '\\' :: t.reverse) ++ [a] by simp]
        exact List.getLast?_concat _
      have hw : lfnsplit (mkPath d (cs ++ [lc])) =
          (d.chars ++ '\\' :: interSep cs, lc) := by
        simp [lfnsplit, wrapsplit, hs, hlastv, hcol]
      rw [hw]
      exact ntjoin_multi d cs lc hd hcs hallcs hlc

/-- Witness for C6: the round trip at `C:\a\b` and at the extended drive
root `\\?\C:\`. -/
theorem join_lfnsplit_roundtrip_witness :
    ntjoin (lfnsplit (mkPath (Drive.letter 'C') [strL "a", strL "b"])).1
        (lfnsplit (mkPath (Drive.letter 'C') [strL "a", strL "b"])).2 =
      mkPath (Drive.letter 'C') [strL "a", strL "b"] ∧
    ntjoin (lfnsplit (mkPath (Drive.extended 'C') [])).1
        (lfnsplit (mkPath (Drive.extended 'C') [])).2 =
      mkPath (Drive.extended 'C') [] :=
  ⟨join_lfnsplit_roundtrip (Drive.letter 'C') [strL "a", strL "b"] (by decide)
      (by decide),
    join_lfnsplit_roundtrip (Drive.extended 'C') [] (by decide) (by decide)⟩

/-- Counterexample for claim C6: the claim asserts that the unwrapped native
split/join pair violates the round-trip law at drive roots, but on the
Python 3 `ntpath` this port targets the native pair already satisfies the
law at both drive roots the claim names — native `split` itself returns the
root with its trailing backslash (`("C:\\", "")`), so there is no violation
for the wrap to repair there. -/
theorem native_split_join_roundtrip_at_drive_roots :
    ntjoin (ntsplit (strL "C:\\")).1 (ntsplit (strL "C:\\")).2 = strL "C:\\" ∧
    ntjoin (ntsplit (strL "\\\\?\\C:\\")).1 (ntsplit (strL "\\\\?\\C:\\")).2 =
      strL "\\\\?\\C:\\" ∧
    ntsplit (strL "C:\\") = (strL "C:\\", strL "") ∧
    ntsplit (strL "\\\\?\\C:\\") = (strL "\\\\?\\C:\\", strL "") :=
  ⟨rfl, rfl, rfl, rfl⟩
